import Mathlib

/-!
# Verification of the SoundWave MP3 player (`mp3_player.py`)

A shallow embedding of the playback/playlist state machine, the metadata
reader and the directory scanner of `mp3_player.py`, together with proofs
of the specified properties.

Modelling conventions:
* Wall-clock instants and durations are rationals (`ℚ`), in seconds.
* The pygame mixer is external: commands issued to it are recorded in a
  `List EngineCmd`; whether `load`/`play` succeeds for a path is a
  parameter `ok : String → Bool`, and whether audio is still rendering is
  a parameter `busy : Bool` of the poll.
* Tk UI mutations (labels, listbox, canvas) carry no playback state and
  are omitted; the seek-bar percentage and drag flag, which the logic
  reads, are kept.
* `random.randint(0, len - 1)` is modelled by a parameter `rand : Nat`
  whose range hypothesis `rand < len` is the contract of `randint`.
-/

/-- One playlist entry: the dict `{path, title, artist, album, duration}`
built by `get_mp3_meta(f) | {"path": f}`. -/
structure Track where
  path : String
  title : String
  artist : String
  album : String
  duration : ℚ
deriving Repr, DecidableEq

/-- Commands issued to `pygame.mixer.music`. -/
inductive EngineCmd where
  | load (path : String)
  | play (start : ℚ)
  | pause
  | unpause
  | stop
deriving Repr, DecidableEq

/-- The mutable state of `MP3Player` (`__init__`, lines 93-104), restricted
to the fields the playback logic reads or writes.  `_pause_pos` is created
lazily in Python on the first pause; here it starts at `0`, which is
unobservable because `is_paused` starts `false` and is only set together
with `_pause_pos`. -/
structure PlayerState where
  playlist : List Track
  current_idx : Int
  is_playing : Bool
  is_paused : Bool
  duration : ℚ
  seek_pos : ℚ
  play_start : ℚ
  dragging : Bool
  shuffle : Bool
  repeat_ : Bool
  pause_pos : ℚ
deriving Repr, DecidableEq

/-- Result of invoking one handler: the new state, the engine commands
issued, and whether a `messagebox.showerror` dialog was shown. -/
structure StepResult where
  state : PlayerState
  cmds : List EngineCmd
  errorShown : Bool
deriving Repr, DecidableEq

/-- `MP3Player._load_track` (lines 420-449).  Out-of-range indices are a
no-op.  Otherwise `current_idx`, `duration` and `seek_pos` are written
before the `try` block; on engine success (`ok`) the track is loaded and
played and the timing/playing flags are set; on engine failure the
exception is caught and an error dialog is shown, leaving the flags as
they were. -/
def _load_track (ok : String → Bool) (now : ℚ) (st : PlayerState) (idx : Int) : StepResult :=
  if h : idx < 0 ∨ (st.playlist.length : Int) ≤ idx then ⟨st, [], false⟩
  else
    have hlt : idx.toNat < st.playlist.length := by omega
    let track := st.playlist.get ⟨idx.toNat, hlt⟩
    let st1 := { st with current_idx := idx, duration := track.duration, seek_pos := 0 }
    if ok track.path then
      ⟨{ st1 with play_start := now, is_playing := true, is_paused := false },
       [EngineCmd.load track.path, EngineCmd.play 0], false⟩
    else
      ⟨st1, [], true⟩

/-- `MP3Player._play_pause` (lines 451-472). -/
def _play_pause (ok : String → Bool) (now : ℚ) (st : PlayerState) : StepResult :=
  if st.playlist.isEmpty then ⟨st, [], false⟩
  else if st.current_idx < 0 then _load_track ok now st 0
  else if st.is_playing && !st.is_paused then
    ⟨{ st with is_paused := true, pause_pos := now - st.play_start },
     [EngineCmd.pause], false⟩
  else if st.is_paused then
    ⟨{ st with play_start := now - st.pause_pos, is_paused := false },
     [EngineCmd.unpause], false⟩
  else
    _load_track ok now st st.current_idx

/-- `MP3Player._stop` (lines 474-478). -/
def _stop (st : PlayerState) : StepResult :=
  ⟨{ st with is_playing := false, is_paused := false }, [EngineCmd.stop], false⟩

/-- `MP3Player._clear_playlist` (lines 404-416): stop, then empty the
playlist and reset `current_idx` to the `-1` sentinel (the remaining lines
only reset Tk widgets). -/
def _clear_playlist (st : PlayerState) : StepResult :=
  let s := _stop st
  ⟨{ s.state with playlist := [], current_idx := -1 }, s.cmds, false⟩

/-- `MP3Player._next_track` (lines 480-488).  `rand` stands for
`random.randint(0, len(self.playlist) - 1)`. -/
def _next_track (ok : String → Bool) (now : ℚ) (rand : Nat) (st : PlayerState) : StepResult :=
  if st.playlist.isEmpty then ⟨st, [], false⟩
  else
    let idx : Int :=
      if st.shuffle then (rand : Int)
      else (st.current_idx + 1) % (st.playlist.length : Int)
    _load_track ok now st idx

/-- `MP3Player._prev_track` (lines 490-499). -/
def _prev_track (ok : String → Bool) (now : ℚ) (st : PlayerState) : StepResult :=
  if st.playlist.isEmpty then ⟨st, [], false⟩
  else
    let elapsed : ℚ := if st.is_playing then now - st.play_start else 0
    if 3 < elapsed then
      _load_track ok now st st.current_idx
    else
      _load_track ok now st ((st.current_idx - 1) % (st.playlist.length : Int))

/-- `MP3Player._on_seek_release` (lines 525-534).  `pct` is the seek bar
value `self.progress_var.get()` in `[0, 100]`. -/
def _on_seek_release (now : ℚ) (pct : ℚ) (st : PlayerState) : StepResult :=
  let st0 := { st with dragging := false }
  if 0 < st0.duration then
    let pos := pct / 100 * st0.duration
    ⟨{ st0 with play_start := now - pos, is_playing := true, is_paused := false },
     [EngineCmd.play pos], false⟩
  else ⟨st0, [], false⟩

/-- One tick of `MP3Player._poll_playback` (lines 538-555), without the
re-arming `root.after` and the label/progress-bar updates.  `busy` is
`pygame.mixer.music.get_busy()`. -/
def _poll_playback (ok : String → Bool) (now : ℚ) (busy : Bool) (rand : Nat)
    (st : PlayerState) : StepResult :=
  if st.is_playing && !st.is_paused && !st.dragging then
    let elapsed := now - st.play_start
    if !busy && decide (st.duration - 1/2 ≤ elapsed) && decide (0 < st.duration) then
      let st1 := { st with is_playing := false }
      if st1.repeat_ then _load_track ok now st1 st1.current_idx
      else _next_track ok now rand st1
    else ⟨st, [], false⟩
  else ⟨st, [], false⟩

/-! ## Metadata reader (`get_mp3_meta`, lines 60-72)

The mutagen library is external.  Its two calls are modelled by
parameters: `mp3Length` is `MP3(path).info.length` (`none` when `MP3(path)`
raises), and `id3` is the `ID3(path)` tag dictionary (`none` when it
raises).  An exception in either call aborts the `try` block at that
point, keeping whatever fields were already written. -/

/-- The chars of `path` after the last `/` (the POSIX file name, as in
`pathlib.PurePath.name` for paths without a trailing slash). -/
def lastComponent (cs : List Char) : List Char :=
  (cs.reverse.takeWhile (fun c => decide (c ≠ '/'))).reverse

/-- Drop the extension from a file name, following `pathlib` suffix rules:
the extension starts at the last dot, provided that dot is neither the
leading character nor the last one. -/
def stemChars (cs : List Char) : List Char :=
  if '.' ∈ cs then
    let i := cs.length - 1 - (cs.reverse.takeWhile (fun c => decide (c ≠ '.'))).length
    if 0 < i ∧ i + 1 < cs.length then cs.take i else cs
  else cs

/-- `pathlib.Path(path).stem`: the final path component without its
extension. -/
def pathStem (path : String) : String :=
  String.mk (stemChars (lastComponent path.toList))

/-- The ID3 tag dictionary as the code reads it: which of the `TIT2`,
`TPE1`, `TALB` frames are present, and the `str(...)` of each present
frame. -/
structure ID3Tags where
  tit2 : Option String
  tpe1 : Option String
  talb : Option String
deriving Repr, DecidableEq

/-- The `meta` dict returned by `get_mp3_meta`. -/
structure MetaDict where
  title : String
  artist : String
  album : String
  duration : ℚ
deriving Repr, DecidableEq

/-- `get_mp3_meta` (lines 60-72): defaults are the filename stem,
"Unknown", "Unknown" and duration 0; with mutagen available, the duration
and then each present tag overwrite the defaults, and any exception is
swallowed, keeping the fields written so far. -/
def get_mp3_meta (hasMutagen : Bool) (mp3Length : Option ℚ) (id3 : Option ID3Tags)
    (path : String) : MetaDict :=
  let meta0 : MetaDict := ⟨pathStem path, "Unknown", "Unknown", 0⟩
  if hasMutagen then
    match mp3Length with
    | none => meta0
    | some len =>
      let meta1 := { meta0 with duration := len }
      match id3 with
      | none => meta1
      | some tags =>
        { meta1 with
          title := tags.tit2.getD meta1.title
          artist := tags.tpe1.getD meta1.artist
          album := tags.talb.getD meta1.album }
  else meta0

/-! ## Directory scanner (`scan_directory`, lines 75-82)

The filesystem is external: a directory is a tree of subdirectory names
and file names, and `os.walk(root_path)` enumerates `(dirpath, dirnames,
filenames)` triples top-down.  A non-existent root is `none`: `os.walk`
then yields nothing. -/

/-- A directory: its plain files and its subdirectories. -/
inductive FSTree where
  | node (files : List String) (dirs : List (String × FSTree))

/-- `os.path.join(dir, f)` for POSIX paths without trailing slashes. -/
def osJoin (dir f : String) : String := dir ++ "/" ++ f

mutual

/-- The `(dirpath, filenames)` pairs that `os.walk` yields for the tree
rooted at path `p` (the `dirnames` component is unused by the code). -/
def walkEntries (p : String) : FSTree → List (String × List String)
  | .node files dirs => (p, files) :: walkDirs p dirs

/-- `os.walk` continued over a list of subdirectories of `p`. -/
def walkDirs (p : String) : List (String × FSTree) → List (String × List String)
  | [] => []
  | (d, t) :: rest => walkEntries (osJoin p d) t ++ walkDirs p rest

end

/-- Python `sorted` on strings: ascending lexicographic order on code
points. -/
def pySort (l : List String) : List String := l.mergeSort (fun a b => decide (a ≤ b))

/-- `scan_directory` (lines 75-82): walk the tree, take each directory's
file names in sorted order, keep those whose lowercasing ends in ".mp3",
join them onto the directory path, and sort the collected list. -/
def scan_directory (root : Option (String × FSTree)) : List String :=
  match root with
  | none => []
  | some (p, t) =>
    pySort ((walkEntries p t).flatMap (fun e =>
      ((pySort e.2).filter (fun f => f.toLower.endsWith ".mp3")).map (fun f => osJoin e.1 f)))

/-- The full paths of the files beneath `p` whose extension
case-insensitively equals "mp3" (the name's lowercasing ends in ".mp3"):
the set the spec says `scan` returns. -/
def mp3FilesUnder (p : String) (t : FSTree) : List String :=
  (walkEntries p t).flatMap (fun e =>
    (e.2.filter (fun f => f.toLower.endsWith ".mp3")).map (fun f => osJoin e.1 f))

/-! ## Concrete states used to instantiate the theorems -/

/-- A track as built for a file with no readable tags. -/
def mkTrack (p : String) (d : ℚ) : Track :=
  { path := p, title := pathStem p, artist := "Unknown", album := "Unknown", duration := d }

/-- A one-track player currently playing from `play_start = 0`. -/
def samplePlaying : PlayerState :=
  { playlist := [mkTrack "/music/song.mp3" 200], current_idx := 0,
    is_playing := true, is_paused := false, duration := 200, seek_pos := 0,
    play_start := 0, dragging := false, shuffle := false, repeat_ := false,
    pause_pos := 0 }

/-- A four-track playlist positioned on the last index, shuffle off. -/
def fourTrackState : PlayerState :=
  { playlist := [mkTrack "/m/a.mp3" 10, mkTrack "/m/b.mp3" 20,
                 mkTrack "/m/c.mp3" 30, mkTrack "/m/d.mp3" 40],
    current_idx := 3, is_playing := true, is_paused := false, duration := 40,
    seek_pos := 0, play_start := 0, dragging := false, shuffle := false,
    repeat_ := false, pause_pos := 0 }

/-- A three-track playlist positioned on the middle index, playing from
`play_start = 0`. -/
def threeTrackState : PlayerState :=
  { playlist := [mkTrack "/m/x.mp3" 10, mkTrack "/m/y.mp3" 20, mkTrack "/m/z.mp3" 30],
    current_idx := 1, is_playing := true, is_paused := false, duration := 20,
    seek_pos := 0, play_start := 0, dragging := false, shuffle := false,
    repeat_ := false, pause_pos := 0 }

/-- A one-track player with repeat on, 30 seconds in. -/
def repeatState : PlayerState :=
  { playlist := [mkTrack "/music/loop.mp3" 30], current_idx := 0,
    is_playing := true, is_paused := false, duration := 30, seek_pos := 0,
    play_start := 0, dragging := false, shuffle := false, repeat_ := true,
    pause_pos := 0 }

/-- A two-track player whose `current_idx` is the `-1` sentinel while
`is_playing` holds (reachable: a failed load leaves a positive
`duration`; `_clear_playlist` resets the index but not `duration`;
`_add_files` refills the playlist; `_on_seek_release` then sets
`is_playing` without touching `current_idx`). -/
def sentinelPlaying : PlayerState :=
  { playlist := [mkTrack "/m/a.mp3" 10, mkTrack "/m/b.mp3" 20],
    current_idx := -1, is_playing := true, is_paused := false, duration := 10,
    seek_pos := 0, play_start := 0, dragging := false, shuffle := false,
    repeat_ := false, pause_pos := 0 }

/-- The two-track sentinel state with playback off: the ordinary
"playlist loaded, nothing started yet" situation. -/
def freshTwoTrack : PlayerState :=
  { sentinelPlaying with is_playing := false }

/-! ## Helper lemmas about `_load_track` -/

/-- Out-of-range indices leave the state untouched and issue nothing. -/
theorem load_track_noop (ok : String → Bool) (now : ℚ) (st : PlayerState) (idx : Int)
    (h : idx < 0 ∨ (st.playlist.length : Int) ≤ idx) :
    _load_track ok now st idx = ⟨st, [], false⟩ := by
  rw [_load_track, dif_pos h]

/-- `_load_track` at an in-range index whose track is `tr`, split on
whether the engine accepts the file. -/
theorem load_track_eq (ok : String → Bool) (now : ℚ) (st : PlayerState) (idx : Int)
    (tr : Track) (hlo : 0 ≤ idx) (htr : st.playlist[idx.toNat]? = some tr) :
    _load_track ok now st idx =
      if ok tr.path then
        ⟨{ st with current_idx := idx, duration := tr.duration, seek_pos := 0
                   play_start := now, is_playing := true, is_paused := false },
         [EngineCmd.load tr.path, EngineCmd.play 0], false⟩
      else
        ⟨{ st with current_idx := idx, duration := tr.duration, seek_pos := 0 },
         [], true⟩ := by
  obtain ⟨hlt, hget⟩ := List.getElem?_eq_some_iff.mp htr
  have hc : ¬(idx < 0 ∨ (st.playlist.length : Int) ≤ idx) := by omega
  have hgt : st.playlist.get ⟨idx.toNat, hlt⟩ = tr := by
    simpa [List.get_eq_getElem] using hget
  rw [_load_track, dif_neg hc]
  simp only [hgt]

/-- In range, `_load_track` always writes `current_idx`, `duration` and
`seek_pos`, whether or not the engine accepts the file. -/
theorem load_track_state_inrange (ok : String → Bool) (now : ℚ) (st : PlayerState) (idx : Int)
    (hlo : 0 ≤ idx) (hhi : idx < (st.playlist.length : Int)) :
    (_load_track ok now st idx).state.current_idx = idx := by
  have hlt : idx.toNat < st.playlist.length := by omega
  have htr : st.playlist[idx.toNat]? = some st.playlist[idx.toNat] :=
    List.getElem?_eq_getElem hlt
  rw [load_track_eq ok now st idx _ hlo htr]
  by_cases hok : ok st.playlist[idx.toNat].path <;> simp [hok]

/-! ## Claim theorems -/

/-- C1: pause-then-resume preserves the elapsed position.  From any state
with a non-empty playlist, a loaded track (`current_idx ≥ 0`), playing and
not paused, `_play_pause` at time `t1` pauses the engine and records
`pause_pos = t1 - play_start`; a second `_play_pause` at an arbitrary
later time `t2` resumes with `play_start = t2 - pause_pos`, so the elapsed
time `t2 - play_start` computed immediately after the resume equals the
elapsed time at the moment of pausing, not that value plus the delay. -/
theorem pause_resume_preserves_elapsed (ok : String → Bool) (t1 t2 : ℚ) (st : PlayerState)
    (hne : st.playlist ≠ []) (hidx : 0 ≤ st.current_idx)
    (hp : st.is_playing = true) (hnp : st.is_paused = false) :
    (_play_pause ok t1 st).state.pause_pos = t1 - st.play_start ∧
    (_play_pause ok t1 st).cmds = [EngineCmd.pause] ∧
    (_play_pause ok t2 (_play_pause ok t1 st).state).cmds = [EngineCmd.unpause] ∧
    t2 - (_play_pause ok t2 (_play_pause ok t1 st).state).state.play_start
      = t1 - st.play_start := by
  have hempty : st.playlist.isEmpty = false := by
    cases h : st.playlist with
    | nil => exact absurd h hne
    | cons a l => rfl
  have hlt : ¬ st.current_idx < 0 := not_lt.mpr hidx
  simp [_play_pause, hempty, hlt, hp, hnp]

/-- C1 witness: the one-track playing state paused at time 12 and resumed
at time 17 reports elapsed 12 again, not 17. -/
theorem pause_resume_preserves_elapsed_witness :
    (17 : ℚ) - (_play_pause (fun _ => true) 17
        (_play_pause (fun _ => true) 12 samplePlaying).state).state.play_start
      = 12 - samplePlaying.play_start :=
  (pause_resume_preserves_elapsed (fun _ => true) 12 17 samplePlaying
    (by decide) (by decide) rfl rfl).2.2.2

/-- C2 counterexample: with a previous track still playing, a rejected
load at the in-range index 0 shows the error dialog yet leaves
`is_playing = true` — the claim requires `is_playing = false` after every
failed load regardless of prior state. -/
theorem load_failure_counterexample :
    (_load_track (fun _ => false) 5 samplePlaying 0).errorShown = true ∧
    (_load_track (fun _ => false) 5 samplePlaying 0).state.is_playing = true := by
  decide

/-- C2 amended: for every in-range index whose track the engine rejects,
`_load_track` reports the failure and does not newly mark the state
playing: `is_playing` (and `is_paused`) keep their prior values — so the
state stays "not playing" whenever it was not playing before the call —
and no engine command takes effect. -/
theorem load_failure_keeps_prior_flags (ok : String → Bool) (now : ℚ) (st : PlayerState)
    (idx : Int) (tr : Track) (hlo : 0 ≤ idx)
    (htr : st.playlist[idx.toNat]? = some tr) (hfail : ok tr.path = false) :
    (_load_track ok now st idx).errorShown = true ∧
    (_load_track ok now st idx).state.is_playing = st.is_playing ∧
    (_load_track ok now st idx).state.is_paused = st.is_paused ∧
    (_load_track ok now st idx).cmds = [] := by
  rw [load_track_eq ok now st idx tr hlo htr]
  simp [hfail]

/-- C2 witness: the failed load over the playing sample state reports the
error and leaves the playing flag at its prior value. -/
theorem load_failure_keeps_prior_flags_witness :
    (_load_track (fun _ => false) 5 samplePlaying 0).errorShown = true ∧
    (_load_track (fun _ => false) 5 samplePlaying 0).state.is_playing
      = samplePlaying.is_playing :=
  ⟨(load_failure_keeps_prior_flags (fun _ => false) 5 samplePlaying 0
      (mkTrack "/music/song.mp3" 200) (by decide) (by decide) rfl).1,
   (load_failure_keeps_prior_flags (fun _ => false) 5 samplePlaying 0
      (mkTrack "/music/song.mp3" 200) (by decide) (by decide) rfl).2.1⟩

/-- C7: releasing the seek bar at `pct` with a known duration commands the
engine to restart playback at offset `pct/100 × duration` and sets
`play_start = now - pct/100 × duration`, so the elapsed time computed by a
poll `t` seconds after the release is `pct/100 × duration + t`. -/
theorem seek_release_elapsed (now t pct : ℚ) (st : PlayerState)
    (hd : 0 < st.duration) (h0 : 0 ≤ pct) (h100 : pct ≤ 100) :
    (_on_seek_release now pct st).cmds = [EngineCmd.play (pct / 100 * st.duration)] ∧
    (_on_seek_release now pct st).state.play_start = now - pct / 100 * st.duration ∧
    (now + t) - (_on_seek_release now pct st).state.play_start
      = pct / 100 * st.duration + t ∧
    (_on_seek_release now pct st).state.is_playing = true ∧
    (_on_seek_release now pct st).state.is_paused = false := by
  simp [_on_seek_release, hd]
  ring

/-- C7 witness: seeking to 50% of the 200-second sample track at time 100
makes a poll 1 second later report elapsed 101. -/
theorem seek_release_elapsed_witness :
    ((100 : ℚ) + 1) - (_on_seek_release 100 50 samplePlaying).state.play_start
      = 50 / 100 * samplePlaying.duration + 1 :=
  (seek_release_elapsed 100 1 50 samplePlaying (by decide) (by decide)
    (by decide)).2.2.1

/-- C9: clearing the playlist stops playback (a `stop` command is issued
and both flags drop), empties the playlist and resets `current_idx` to
the `-1` sentinel; a subsequent `_play_pause` at any time is a no-op that
changes no state and issues no engine command. -/
theorem clear_playlist_spec (ok : String → Bool) (now : ℚ) (st : PlayerState) :
    (_clear_playlist st).state.playlist = [] ∧
    (_clear_playlist st).state.current_idx = -1 ∧
    (_clear_playlist st).state.is_playing = false ∧
    (_clear_playlist st).state.is_paused = false ∧
    (_clear_playlist st).cmds = [EngineCmd.stop] ∧
    _play_pause ok now (_clear_playlist st).state
      = ⟨(_clear_playlist st).state, [], false⟩ := by
  simp [_clear_playlist, _stop, _play_pause]

/-- A non-empty playlist is not `isEmpty`. -/
theorem playlist_isEmpty_false (l : List Track) (h : l ≠ []) : l.isEmpty = false := by
  cases hl : l with
  | nil => exact absurd hl h
  | cons a t => rfl

/-- C3: `_prev_track` on a non-empty playlist restarts the current index
when more than 3 seconds have elapsed while playing — `current_idx` after
the call equals `current_idx` before — and otherwise (elapsed at most 3
seconds, in particular whenever not playing) moves to
`(current_idx - 1) mod length`, which wraps from index 0 to the last
index. -/
theorem prev_track_moves (ok : String → Bool) (now : ℚ) (st : PlayerState)
    (hne : st.playlist ≠ []) :
    ((st.is_playing = true ∧ 3 < now - st.play_start) →
      (_prev_track ok now st).state.current_idx = st.current_idx) ∧
    ((if st.is_playing then now - st.play_start else 0) ≤ 3 →
      (_prev_track ok now st).state.current_idx
        = (st.current_idx - 1) % (st.playlist.length : Int)) := by
  have hempty := playlist_isEmpty_false st.playlist hne
  have hlen : 0 < st.playlist.length := List.length_pos.mpr hne
  have hlen0 : (st.playlist.length : Int) ≠ 0 := by exact_mod_cast hlen.ne'
  have hprev : _prev_track ok now st =
      if 3 < (if st.is_playing then now - st.play_start else 0) then
        _load_track ok now st st.current_idx
      else
        _load_track ok now st ((st.current_idx - 1) % (st.playlist.length : Int)) := by
    rw [_prev_track]
    simp [hempty]
  constructor
  · rintro ⟨hp, h3⟩
    have hcond : 3 < (if st.is_playing then now - st.play_start else 0) := by
      rw [hp, if_pos rfl]; exact h3
    rw [hprev, if_pos hcond]
    by_cases hin : st.current_idx < 0 ∨ (st.playlist.length : Int) ≤ st.current_idx
    · rw [load_track_noop ok now st _ hin]
    · push_neg at hin
      exact load_track_state_inrange ok now st _ hin.1 hin.2
  · intro hle
    rw [hprev, if_neg (not_lt.mpr hle)]
    exact load_track_state_inrange ok now st _
      (Int.emod_nonneg _ hlen0) (Int.emod_lt_of_pos _ (by exact_mod_cast hlen))

/-- C3 witness: on the three-track playlist at index 1, `_prev_track` with
5 seconds elapsed keeps index 1, and with 1 second elapsed moves to
`(1 - 1) mod 3 = 0`. -/
theorem prev_track_moves_witness :
    (_prev_track (fun _ => true) 5 threeTrackState).state.current_idx
        = threeTrackState.current_idx ∧
    (_prev_track (fun _ => true) 1 threeTrackState).state.current_idx
        = (threeTrackState.current_idx - 1) % (threeTrackState.playlist.length : Int) :=
  ⟨(prev_track_moves (fun _ => true) 5 threeTrackState (by decide)).1
      ⟨rfl, by norm_num [threeTrackState]⟩,
   (prev_track_moves (fun _ => true) 1 threeTrackState (by decide)).2
      (by norm_num [threeTrackState])⟩

/-- C8: with shuffle off, a non-empty playlist, and an engine that accepts
the track at `(current_idx + 1) mod length`, `_next_track` moves to that
index — wrapping from the last index to 0 — and loads the resulting
track, issuing `load` then `play 0` and restarting playback from elapsed
time zero. -/
theorem next_track_advances (ok : String → Bool) (now : ℚ) (rand : Nat)
    (st : PlayerState) (tr : Track) (hsh : st.shuffle = false)
    (hne : st.playlist ≠ [])
    (htr : st.playlist[((st.current_idx + 1) % (st.playlist.length : Int)).toNat]? = some tr)
    (hok : ok tr.path = true) :
    (_next_track ok now rand st).state.current_idx
      = (st.current_idx + 1) % (st.playlist.length : Int) ∧
    (_next_track ok now rand st).cmds = [EngineCmd.load tr.path, EngineCmd.play 0] ∧
    (_next_track ok now rand st).state.is_playing = true ∧
    (_next_track ok now rand st).state.seek_pos = 0 ∧
    (_next_track ok now rand st).state.play_start = now := by
  have hempty := playlist_isEmpty_false st.playlist hne
  have hlen : 0 < st.playlist.length := List.length_pos.mpr hne
  have hlen0 : (st.playlist.length : Int) ≠ 0 := by exact_mod_cast hlen.ne'
  have hnext : _next_track ok now rand st =
      _load_track ok now st ((st.current_idx + 1) % (st.playlist.length : Int)) := by
    rw [_next_track]
    simp [hempty, hsh]
  rw [hnext, load_track_eq ok now st _ tr (Int.emod_nonneg _ hlen0) htr, if_pos hok]
  simp

/-- C8 witness: the four-track playlist at index 3 wraps to index 0 and
restarts playback on the first track. -/
theorem next_track_advances_witness :
    (_next_track (fun _ => true) 7 0 fourTrackState).state.current_idx
      = (fourTrackState.current_idx + 1) % (fourTrackState.playlist.length : Int) ∧
    (_next_track (fun _ => true) 7 0 fourTrackState).state.is_playing = true :=
  ⟨(next_track_advances (fun _ => true) 7 0 fourTrackState (mkTrack "/m/a.mp3" 10)
      rfl (by decide) (by decide) rfl).1,
   (next_track_advances (fun _ => true) 7 0 fourTrackState (mkTrack "/m/a.mp3" 10)
      rfl (by decide) (by decide) rfl).2.2.1⟩

/-- C4: in the playback poll, while playing, not paused and not dragging,
when the engine reports non-busy, the duration is known and positive, and
the simulated elapsed time `now - play_start` is within half a second of
the duration, the tick treats the track as naturally complete: with
repeat on, the result is exactly a reload of the current index over the
stopped state — leaving `current_idx` unchanged — and with repeat off it
is exactly the `_next_track` algorithm over the stopped state. -/
theorem poll_natural_completion (ok : String → Bool) (now : ℚ) (busy : Bool) (rand : Nat)
    (st : PlayerState) (hp : st.is_playing = true) (hnp : st.is_paused = false)
    (hnd : st.dragging = false) (hbusy : busy = false) (hdur : 0 < st.duration)
    (hnear : |now - st.play_start - st.duration| ≤ 1/2) :
    (st.repeat_ = true →
      _poll_playback ok now busy rand st
          = _load_track ok now { st with is_playing := false } st.current_idx ∧
      (_poll_playback ok now busy rand st).state.current_idx = st.current_idx) ∧
    (st.repeat_ = false →
      _poll_playback ok now busy rand st
        = _next_track ok now rand { st with is_playing := false }) := by
  have hcond : st.duration - 1/2 ≤ now - st.play_start := by
    have := (abs_le.mp hnear).1
    linarith
  have hpoll : _poll_playback ok now busy rand st =
      if st.repeat_ then _load_track ok now { st with is_playing := false } st.current_idx
      else _next_track ok now rand { st with is_playing := false } := by
    rw [_poll_playback]
    simp [hp, hnp, hnd, hbusy, hcond, hdur]
    intro h
    linarith
  constructor
  · intro hrep
    rw [hpoll, if_pos hrep]
    refine ⟨rfl, ?_⟩
    by_cases hin : st.current_idx < 0 ∨ (st.playlist.length : Int) ≤ st.current_idx
    · rw [load_track_noop ok now _ _ (by simpa using hin)]
    · push_neg at hin
      have := load_track_state_inrange ok now { st with is_playing := false }
        st.current_idx (by simpa using hin.1) (by simpa using hin.2)
      simpa using this
  · intro hrep
    rw [hpoll, if_neg (by simp [hrep])]

/-- C4 witness: the repeat-on 30-second track, non-busy at elapsed 30,
reloads the same index. -/
theorem poll_natural_completion_witness :
    (_poll_playback (fun _ => true) 30 false 0 repeatState).state.current_idx
      = repeatState.current_idx :=
  ((poll_natural_completion (fun _ => true) 30 false 0 repeatState rfl rfl rfl rfl
      (by norm_num [repeatState]) (by norm_num [repeatState])).1 rfl).2

/-- C10 counterexample: `_prev_track` from the reachable `sentinelPlaying`
state — non-empty playlist, prior `current_idx = -1`, playing for more
than 3 seconds — takes the restart branch, whose bounds check makes the
reload a no-op: after the call `current_idx` is still `-1`, outside
`[0, length - 1]`. -/
theorem prev_out_of_range_counterexample :
    (_prev_track (fun _ => true) 10 sentinelPlaying).state.current_idx = -1 ∧
    ¬ 0 ≤ (_prev_track (fun _ => true) 10 sentinelPlaying).state.current_idx := by
  have h : _prev_track (fun _ => true) 10 sentinelPlaying
      = _load_track (fun _ => true) 10 sentinelPlaying sentinelPlaying.current_idx := by
    rw [_prev_track]
    norm_num [sentinelPlaying]
  rw [h, load_track_noop _ _ _ _ (Or.inl (by decide))]
  decide

/-- C10 amended: on a non-empty playlist, after `_next_track` the index
always lies in `[0, length - 1]` whatever the prior index — both the
shuffle draw and the `(current_idx + 1) mod length` arithmetic land in
range and pass `_load_track`'s bounds check — and in particular
`_next_track` from the `-1` sentinel with shuffle off selects index 0.
After `_prev_track` the same holds provided the elapsed time is at most 3
seconds or the prior index was already in range; the remaining case
(restart of an out-of-range index after more than 3 seconds of play) is a
no-op that leaves the index where it was. -/
theorem index_normalization (ok : String → Bool) (now : ℚ) (rand : Nat)
    (st : PlayerState) (hne : st.playlist ≠ []) (hrand : rand < st.playlist.length) :
    (0 ≤ (_next_track ok now rand st).state.current_idx ∧
      (_next_track ok now rand st).state.current_idx < (st.playlist.length : Int)) ∧
    (((if st.is_playing then now - st.play_start else 0) ≤ 3 ∨
        (0 ≤ st.current_idx ∧ st.current_idx < (st.playlist.length : Int))) →
      0 ≤ (_prev_track ok now st).state.current_idx ∧
        (_prev_track ok now st).state.current_idx < (st.playlist.length : Int)) ∧
    (st.current_idx = -1 ∧ st.shuffle = false →
      (_next_track ok now rand st).state.current_idx = 0) := by
  have hempty := playlist_isEmpty_false st.playlist hne
  have hlen : 0 < st.playlist.length := List.length_pos.mpr hne
  have hlen0 : (st.playlist.length : Int) ≠ 0 := by exact_mod_cast hlen.ne'
  have hlenpos : (0 : Int) < st.playlist.length := by exact_mod_cast hlen
  have hnextidx : ∀ idx : Int, 0 ≤ idx → idx < (st.playlist.length : Int) →
      (_load_track ok now st idx).state.current_idx = idx := fun idx h1 h2 =>
    load_track_state_inrange ok now st idx h1 h2
  have hnext : _next_track ok now rand st =
      _load_track ok now st
        (if st.shuffle then (rand : Int)
         else (st.current_idx + 1) % (st.playlist.length : Int)) := by
    rw [_next_track]
    simp [hempty]
  refine ⟨?_, ?_, ?_⟩
  · rw [hnext]
    by_cases hsh : st.shuffle
    · rw [if_pos hsh, hnextidx _ (Int.ofNat_nonneg rand) (by exact_mod_cast hrand)]
      exact ⟨Int.ofNat_nonneg rand, by exact_mod_cast hrand⟩
    · rw [if_neg hsh,
        hnextidx _ (Int.emod_nonneg _ hlen0) (Int.emod_lt_of_pos _ hlenpos)]
      exact ⟨Int.emod_nonneg _ hlen0, Int.emod_lt_of_pos _ hlenpos⟩
  · intro hcase
    have hprev : _prev_track ok now st =
        if 3 < (if st.is_playing then now - st.play_start else 0) then
          _load_track ok now st st.current_idx
        else
          _load_track ok now st ((st.current_idx - 1) % (st.playlist.length : Int)) := by
      rw [_prev_track]
      simp [hempty]
    by_cases h3 : 3 < (if st.is_playing then now - st.play_start else 0)
    · have hin : 0 ≤ st.current_idx ∧ st.current_idx < (st.playlist.length : Int) := by
        rcases hcase with h | h
        · exact absurd h3 (not_lt.mpr h)
        · exact h
      rw [hprev, if_pos h3, hnextidx _ hin.1 hin.2]
      exact hin
    · rw [hprev, if_neg h3,
        hnextidx _ (Int.emod_nonneg _ hlen0) (Int.emod_lt_of_pos _ hlenpos)]
      exact ⟨Int.emod_nonneg _ hlen0, Int.emod_lt_of_pos _ hlenpos⟩
  · rintro ⟨hcur, hsh⟩
    rw [hnext, if_neg (by simp [hsh]), hcur]
    simpa using hnextidx ((-1 + 1) % (st.playlist.length : Int))
      (Int.emod_nonneg _ hlen0) (Int.emod_lt_of_pos _ hlenpos)

/-- C10 witness: on the freshly loaded two-track state (index `-1`, not
playing), `_next_track` selects index 0 and `_prev_track` lands in
range. -/
theorem index_normalization_witness :
    (_next_track (fun _ => true) 0 0 freshTwoTrack).state.current_idx = 0 ∧
    0 ≤ (_prev_track (fun _ => true) 0 freshTwoTrack).state.current_idx :=
  ⟨(index_normalization (fun _ => true) 0 0 freshTwoTrack (by decide) (by decide)).2.2
      ⟨rfl, rfl⟩,
   ((index_normalization (fun _ => true) 0 0 freshTwoTrack (by decide) (by decide)).2.1
      (Or.inl (by norm_num [freshTwoTrack, sentinelPlaying]))).1⟩

/-- C5 counterexample: a parse success whose `TIT2` frame is present but
stringifies to the empty string makes `get_mp3_meta` return an empty
title, where the claim requires every result title to be non-empty. -/
theorem meta_empty_tag_counterexample :
    (get_mp3_meta true (some 10) (some ⟨some "", none, none⟩) "/music/song.mp3").title
      = "" := by
  rfl

/-- C5 amended: `get_mp3_meta` is total — any parse failure is swallowed
and the defaults (filename stem, "Unknown", "Unknown", duration 0) are
returned, and a tag dictionary without a frame keeps that frame's
default — and the result has duration ≥ 0 and non-empty title, artist and
album provided the parsed length (when parsing succeeds) is non-negative,
the filename stem is non-empty and every present tag string is
non-empty. -/
theorem get_mp3_meta_defaults (hasMutagen : Bool) (mp3Length : Option ℚ)
    (id3 : Option ID3Tags) (path : String)
    (hlen : ∀ d, mp3Length = some d → 0 ≤ d)
    (hstem : pathStem path ≠ "")
    (htit : ∀ t s, id3 = some t → t.tit2 = some s → s ≠ "")
    (hart : ∀ t s, id3 = some t → t.tpe1 = some s → s ≠ "")
    (halb : ∀ t s, id3 = some t → t.talb = some s → s ≠ "") :
    0 ≤ (get_mp3_meta hasMutagen mp3Length id3 path).duration ∧
    (get_mp3_meta hasMutagen mp3Length id3 path).title ≠ "" ∧
    (get_mp3_meta hasMutagen mp3Length id3 path).artist ≠ "" ∧
    (get_mp3_meta hasMutagen mp3Length id3 path).album ≠ "" ∧
    ((hasMutagen = false ∨ mp3Length = none) →
      get_mp3_meta hasMutagen mp3Length id3 path
        = ⟨pathStem path, "Unknown", "Unknown", 0⟩) := by
  have hUnk : ("Unknown" : String) ≠ "" := by decide
  cases hasMutagen with
  | false =>
    refine ⟨?_, ?_, ?_, ?_, ?_⟩ <;> simp [get_mp3_meta, hstem, hUnk]
  | true =>
    cases mp3Length with
    | none =>
      refine ⟨?_, ?_, ?_, ?_, ?_⟩ <;> simp [get_mp3_meta, hstem, hUnk]
    | some len =>
      have hl : 0 ≤ len := hlen len rfl
      cases id3 with
      | none =>
        refine ⟨?_, ?_, ?_, ?_, ?_⟩ <;> simp [get_mp3_meta, hstem, hUnk, hl]
      | some tags =>
        obtain ⟨tit, art, alb⟩ := tags
        refine ⟨by simp [get_mp3_meta, hl], ?_, ?_, ?_, by simp⟩
        · cases htt : tit with
          | none => simp [get_mp3_meta, htt, hstem]
          | some s =>
            simpa [get_mp3_meta, htt] using htit ⟨tit, art, alb⟩ s rfl htt
        · cases htt : art with
          | none => simp [get_mp3_meta, htt, hUnk]
          | some s =>
            simpa [get_mp3_meta, htt] using hart ⟨tit, art, alb⟩ s rfl htt
        · cases htt : alb with
          | none => simp [get_mp3_meta, htt, hUnk]
          | some s =>
            simpa [get_mp3_meta, htt] using halb ⟨tit, art, alb⟩ s rfl htt

/-- C5 witness: a zero-byte file named "F.mp3" (parse fails) yields the
full defaults, a non-negative duration and non-empty fields. -/
theorem get_mp3_meta_defaults_witness :
    0 ≤ (get_mp3_meta true none none "/music/F.mp3").duration ∧
    (get_mp3_meta true none none "/music/F.mp3").title ≠ "" ∧
    (get_mp3_meta true none none "/music/F.mp3").artist ≠ "" ∧
    (get_mp3_meta true none none "/music/F.mp3").album ≠ "" :=
  ⟨(get_mp3_meta_defaults true none none "/music/F.mp3"
      (by simp) (by decide) (by simp) (by simp) (by simp)).1,
   (get_mp3_meta_defaults true none none "/music/F.mp3"
      (by simp) (by decide) (by simp) (by simp) (by simp)).2.1,
   (get_mp3_meta_defaults true none none "/music/F.mp3"
      (by simp) (by decide) (by simp) (by simp) (by simp)).2.2.1,
   (get_mp3_meta_defaults true none none "/music/F.mp3"
      (by simp) (by decide) (by simp) (by simp) (by simp)).2.2.2.1⟩

/-- C6: `scan_directory` returns a list sorted ascending lexicographically
by full path; its members are exactly the files beneath the root whose
name case-insensitively carries the ".mp3" extension (`mp3FilesUnder`);
and a missing root yields the empty list, not an error. -/
theorem scan_directory_spec (root : Option (String × FSTree)) :
    List.Sorted (· ≤ ·) (scan_directory root) ∧
    (∀ x, x ∈ scan_directory root ↔
      ∃ p t, root = some (p, t) ∧ x ∈ mp3FilesUnder p t) ∧
    scan_directory none = [] := by
  refine ⟨?_, ?_, rfl⟩
  · cases root with
    | none => simp [scan_directory]
    | some pt =>
      obtain ⟨p, t⟩ := pt
      simp only [scan_directory, pySort]
      exact List.sorted_mergeSort' _
  · intro x
    cases root with
    | none => simp [scan_directory]
    | some pt =>
      obtain ⟨p, t⟩ := pt
      simp only [scan_directory, mp3FilesUnder, pySort]
      rw [(List.mergeSort_perm _ _).mem_iff]
      simp only [List.mem_flatMap, List.mem_map, List.mem_filter,
        (List.mergeSort_perm _ _).mem_iff]
      constructor
      · rintro ⟨e, he, f, ⟨hf, hmp3⟩, rfl⟩
        exact ⟨p, t, rfl, e, he, f, ⟨hf, hmp3⟩, rfl⟩
      · rintro ⟨p', t', heq, e, he, f, ⟨hf, hmp3⟩, rfl⟩
        obtain ⟨rfl, rfl⟩ := Prod.mk.injEq .. ▸ Option.some.injEq .. ▸ heq
        exact ⟨e, he, f, ⟨hf, hmp3⟩, rfl⟩
